import Mathlib

/-!
Shallow embedding of the now-cli core under verification:

* `getDeploymentForAlias` (src/src/util/alias/get-deployment-for-alias.ts) —
  the alias target resolver, modelled with its collaborators
  (`fetchDeploymentByIdOrHost`, `getAppName`, `getAppLastDeployment`) and
  the working indicator (`wait` / `cancelWait`) abstracted as an environment,
  and its observable actions recorded as an event trace.
* `waitForDeployment` (src/unnamed/part_000, lines 34-44) — the readiness
  poller, modelled over an explicit list of probe outcomes.
* `fetchTokenWithRetry` and `fetchTokenInformation` (src/unnamed/part_000,
  lines 46-91) — the retrying acquirers, modelled over a network oracle that
  maps (attempt index, request) to an outcome, recording the requests issued
  and the delays waited.

Machine behaviour such as awaiting a promise that rejects is modelled by
`Except`: a collaborator returning `.error e` corresponds to a thrown or
propagated rejection, after which no further statement of the source
function runs.
-/

namespace NowCli

/-! ## Alias target resolver (get-deployment-for-alias.ts) -/

/-- Observable actions of `getDeploymentForAlias`, in chronological order:
the deprecation warning, starting the `wait` spinner, each collaborator
call, and each invocation of the `cancelWait` function returned by `wait`. -/
inductive Event where
  | warnDeprecated : Event
  | waitStart : Event
  | cancelWait : Event
  | callFetchByIdOrHost (deploymentId : String) : Event
  | callGetAppName : Event
  | callGetAppLastDeployment (appName : String) : Event
deriving DecidableEq, Repr

/-- The collaborators of `getDeploymentForAlias`.  `fetchDeploymentByIdOrHost`
receives the literal first argument; `getAppName` consults the local project
configuration (fixed for one invocation, hence a constant here);
`getAppLastDeployment` receives the derived app name.  An `.error` result
models a rejected promise propagating out of the `await`. -/
structure AliasEnv where
  fetchDeploymentByIdOrHost : String → Except Nat String
  getAppName : Except Nat String
  getAppLastDeployment : String → Except Nat String

/-- Embedding of `getDeploymentForAlias` (lines 12-49 of
get-deployment-for-alias.ts).  Returns the function's result (the deployment,
or the propagated error) paired with the chronological trace of observable
events.  Control flow mirrors the source: warn, start the spinner, then
either the explicit-lookup branch (`args.length === 2`) or the config-derived
branch; `cancelWait` is invoked exactly where the source calls it
(lines 35 and 47), and a rejected `await` propagates immediately. -/
def getDeploymentForAlias (env : AliasEnv) (args : List String) :
    Except Nat String × List Event :=
  let ev := [Event.warnDeprecated, Event.waitStart]
  if args.length = 2 then
    let deploymentId := args.headD ""
    match env.fetchDeploymentByIdOrHost deploymentId with
    | .ok deployment =>
        (.ok deployment, ev ++ [.callFetchByIdOrHost deploymentId, .cancelWait])
    | .error e =>
        (.error e, ev ++ [.callFetchByIdOrHost deploymentId])
  else
    match env.getAppName with
    | .error e => (.error e, ev ++ [.callGetAppName])
    | .ok appName =>
      match env.getAppLastDeployment appName with
      | .ok deployment =>
          (.ok deployment,
            ev ++ [.callGetAppName, .callGetAppLastDeployment appName, .cancelWait])
      | .error e =>
          (.error e, ev ++ [.callGetAppName, .callGetAppLastDeployment appName])

/-- How many `cancelWait` invocations a trace records. -/
def countCancel : List Event → Nat
  | [] => 0
  | Event.cancelWait :: rest => countCancel rest + 1
  | _ :: rest => countCancel rest

/-- How many times the `cancelWait` function was invoked during a run. -/
def cancelCount (run : Except Nat String × List Event) : Nat :=
  countCancel run.2

/-- Whether a run finished successfully (promise resolved rather than
rejected). -/
def runOk (run : Except Nat String × List Event) : Bool :=
  match run.1 with
  | .ok _ => true
  | .error _ => false

/-! ## Readiness poller (waitForDeployment, part_000 lines 34-44) -/

/-- Redirect handling mode of a `fetch` call. -/
inductive RedirectMode where
  | follow : RedirectMode
  | manual : RedirectMode
  | error : RedirectMode
deriving DecidableEq, Repr

/-- The init object of a `fetch` call, as far as the poller uses it. -/
structure FetchInit where
  redirect : RedirectMode
deriving DecidableEq, Repr

/-- The init object the poller passes to `fetch` on line 37:
`{ redirect: 'manual' }`, i.e. redirect-following disabled. -/
def probeInit : FetchInit :=
  { redirect := RedirectMode.manual }

/-- Outcome of one probe: either a response with an HTTP status code
(redirects are delivered as their raw 3xx status because `probeInit` is
`manual`), or the fetch itself rejecting (connection failure) with payload
`e`. -/
inductive ProbeOutcome where
  | status (code : Nat) : ProbeOutcome
  | failure (e : Nat) : ProbeOutcome
deriving DecidableEq, Repr

/-- Result of running the poll loop against a finite prefix of probe
outcomes: `ready p ss` — the loop broke out of `while (true)` after probe
number `p`, having slept the intervals in `ss` (milliseconds); `errored e p`
— probe number `p` rejected and the error `e` escaped `waitForDeployment`;
`pending p ss` — the supplied outcomes were exhausted with the loop still
running. -/
inductive PollResult where
  | ready (probes : Nat) (sleeps : List Nat) : PollResult
  | errored (e : Nat) (probes : Nat) (sleeps : List Nat) : PollResult
  | pending (probes : Nat) (sleeps : List Nat) : PollResult
deriving DecidableEq, Repr

/-- One unrolling step of the `while (true)` loop of `waitForDeployment`
(lines 36-43): fetch the next outcome; a 200 status breaks out of the loop;
any other status falls through to `await sleep(2000)` and the next
iteration; a rejecting fetch propagates out of the whole function, since the
loop body has no try/catch.  `probes` and `sleeps` accumulate the probes
issued and the sleeps performed so far. -/
def pollLoop : List ProbeOutcome → Nat → List Nat → PollResult
  | [], probes, sleeps => .pending probes sleeps
  | ProbeOutcome.status code :: rest, probes, sleeps =>
      if code = 200 then .ready (probes + 1) sleeps
      else pollLoop rest (probes + 1) (sleeps ++ [2000])
  | ProbeOutcome.failure _e :: _rest, probes, sleeps =>
      .errored _e (probes + 1) sleeps

/-- Embedding of `waitForDeployment` (lines 34-44): run the poll loop from
the start against the supplied probe outcomes. -/
def waitForDeployment (outcomes : List ProbeOutcome) : PollResult :=
  pollLoop outcomes 0 []

/-! ## Retrying acquirers (fetchTokenWithRetry / fetchTokenInformation,
part_000 lines 46-91) -/

/-- An HTTP request as far as these two functions shape one: the URL and the
optional Authorization header value. -/
structure Request where
  url : String
  auth : Option String
deriving DecidableEq, Repr

/-- The JSON body a successful fetch resolves to; the two functions read the
`token` and `user` fields respectively. -/
structure ApiData where
  token : String
  user : String
deriving DecidableEq, Repr

/-- Which response field a run ultimately resolved: `fetchTokenWithRetry`
resolves `data.token`, `fetchTokenInformation` resolves `data.user`. -/
inductive Field where
  | token (v : String) : Field
  | user (v : String) : Field
deriving DecidableEq, Repr

/-- The network oracle: outcome of issuing a given request as the given
(0-based, global) attempt; `.error` models `fetch` or `res.json()`
rejecting. -/
def Net : Type := Nat → Request → Except String ApiData

/-- A run's observables: the resolved value or surfaced rejection, the
requests issued in order, and the delays (milliseconds) waited between
consecutive attempts. -/
structure RunTrace where
  result : Except String Field
  requests : List Request
  delays : List Nat
deriving Repr

/-- Embedding of `fetchTokenWithRetry(url, retries)` (lines 46-65), with the
attempt counter made explicit.  Each attempt issues `GET url` with no
Authorization header and on success resolves `data.token`.  On failure with
`retries === 0` the last error is rejected to the caller as-is; otherwise
the function waits 500 ms (`setTimeout(..., 500)`) and re-invokes itself
with `retries - 1`, forwarding the recursive outcome. -/
def fetchTokenWithRetry (net : Net) (url : String) :
    Nat → Nat → RunTrace
  | 0, attempt =>
    let req : Request := { url := url, auth := none }
    match net attempt req with
    | .ok data => { result := .ok (.token data.token), requests := [req], delays := [] }
    | .error e => { result := .error e, requests := [req], delays := [] }
  | retries + 1, attempt =>
    let req : Request := { url := url, auth := none }
    match net attempt req with
    | .ok data => { result := .ok (.token data.token), requests := [req], delays := [] }
    | .error _ =>
      let t := fetchTokenWithRetry net url retries (attempt + 1)
      { result := t.result, requests := req :: t.requests, delays := 500 :: t.delays }

/-- The hard-coded user-info URL of `fetchTokenInformation` (line 69). -/
def userUrl : String := "https://api.zeit.co/www/user"

/-- Embedding of `fetchTokenInformation(token, retries)` (lines 67-91).  The
first attempt issues `GET userUrl` with `Authorization: Bearer <token>` and
on success resolves `data.user`.  On failure with `retries === 0` the error
is rejected as-is; otherwise, after the 500 ms timeout, the source calls
`fetchTokenWithRetry(url, retries - 1)` — not itself — so every retry issues
the request without the Authorization header and resolves `data.token`. -/
def fetchTokenInformation (net : Net) (token : String) :
    Nat → Nat → RunTrace
  | 0, attempt =>
    let req : Request := { url := userUrl, auth := some ("Bearer " ++ token) }
    match net attempt req with
    | .ok data => { result := .ok (.user data.user), requests := [req], delays := [] }
    | .error e => { result := .error e, requests := [req], delays := [] }
  | retries + 1, attempt =>
    let req : Request := { url := userUrl, auth := some ("Bearer " ++ token) }
    match net attempt req with
    | .ok data => { result := .ok (.user data.user), requests := [req], delays := [] }
    | .error _ =>
      let t := fetchTokenWithRetry net userUrl retries (attempt + 1)
      { result := t.result, requests := req :: t.requests, delays := 500 :: t.delays }

/-! ## Concrete environments used as counterexamples and witnesses -/

/-- Resolver environment whose explicit lookup rejects with error `5`. -/
def envFetchFails : AliasEnv where
  fetchDeploymentByIdOrHost := fun _ => .error 5
  getAppName := .ok "my-app"
  getAppLastDeployment := fun appName => .ok ("dep-of-" ++ appName)

/-- Resolver environment in which every collaborator succeeds. -/
def envAllOk : AliasEnv where
  fetchDeploymentByIdOrHost := fun deploymentId => .ok ("dep:" ++ deploymentId)
  getAppName := .ok "my-app"
  getAppLastDeployment := fun appName => .ok ("dep-of-" ++ appName)

/-! ## Theorems -/

/-- Claim C1, counterexample: invoked with two arguments against an
environment whose explicit lookup rejects, `getDeploymentForAlias`
propagates the error and the `cancelWait` function is invoked zero times —
not once — so the indicator is not cancelled on this exit path. -/
theorem cancelWait_skipped_on_lookup_error :
    runOk (getDeploymentForAlias envFetchFails ["dep-123", "foo.example.com"]) = false ∧
    cancelCount (getDeploymentForAlias envFetchFails ["dep-123", "foo.example.com"]) = 0 :=
  ⟨rfl, rfl⟩

/-- Claim C1, amended: `cancelWait` is invoked exactly once on every
successful exit of `getDeploymentForAlias` (explicit or config-derived), and
exactly zero times when any collaborator call rejects, because the error
propagates past both `cancelWait()` call sites. -/
theorem getDeploymentForAlias_cancel_count (env : AliasEnv) (args : List String) :
    cancelCount (getDeploymentForAlias env args) =
      if runOk (getDeploymentForAlias env args) then 1 else 0 := by
  by_cases h : args.length = 2
  · cases hf : env.fetchDeploymentByIdOrHost (args.head?.getD "") <;>
      simp [getDeploymentForAlias, cancelCount, countCancel, runOk, h, hf]
  · cases hn : env.getAppName with
    | error e => simp [getDeploymentForAlias, cancelCount, countCancel, runOk, h, hn]
    | ok app =>
      cases hl : env.getAppLastDeployment app <;>
        simp [getDeploymentForAlias, cancelCount, countCancel, runOk, h, hn, hl]

/-- Claim C7: with exactly two positional arguments, the resolver returns
exactly the result of the explicit id/host lookup applied to the first
argument, and its trace contains no `getAppName` call and no
`getAppLastDeployment` call — project configuration is never consulted. -/
theorem getDeploymentForAlias_twoArgs_explicit (env : AliasEnv) (a b : String) :
    (getDeploymentForAlias env [a, b]).1 = env.fetchDeploymentByIdOrHost a ∧
    Event.callGetAppName ∉ (getDeploymentForAlias env [a, b]).2 ∧
    ∀ appName, Event.callGetAppLastDeployment appName ∉ (getDeploymentForAlias env [a, b]).2 := by
  cases hf : env.fetchDeploymentByIdOrHost a <;>
    simp [getDeploymentForAlias, hf]

/-- Claim C10: with an argument list of any length other than 2, the
resolver takes the config-derived path — its trace records a `getAppName`
call and no explicit id/host lookup, and whenever `getAppName` yields an app
name the result is exactly the most-recent-deployment lookup for that
name. -/
theorem getDeploymentForAlias_configPath (env : AliasEnv) (args : List String)
    (h : args.length ≠ 2) :
    Event.callGetAppName ∈ (getDeploymentForAlias env args).2 ∧
    (∀ deploymentId,
      Event.callFetchByIdOrHost deploymentId ∉ (getDeploymentForAlias env args).2) ∧
    (∀ appName, env.getAppName = .ok appName →
      (getDeploymentForAlias env args).1 = env.getAppLastDeployment appName) := by
  cases hn : env.getAppName with
  | error e => simp [getDeploymentForAlias, h, hn]
  | ok app =>
    cases hl : env.getAppLastDeployment app <;>
      simp [getDeploymentForAlias, h, hn, hl]

/-- Witness for claim C10 at the empty argument list: zero arguments select
the config-derived path in a concrete all-success environment. -/
theorem getDeploymentForAlias_configPath_witness :
    ([] : List String).length ≠ 2 ∧
    (Event.callGetAppName ∈ (getDeploymentForAlias envAllOk []).2 ∧
    (∀ deploymentId,
      Event.callFetchByIdOrHost deploymentId ∉ (getDeploymentForAlias envAllOk []).2) ∧
    (∀ appName, envAllOk.getAppName = .ok appName →
      (getDeploymentForAlias envAllOk []).1 = envAllOk.getAppLastDeployment appName)) :=
  ⟨by decide, getDeploymentForAlias_configPath envAllOk [] (by decide)⟩

/-- Helper: running the poll loop over statuses `before ++ 200 :: rest`
where `before` contains no 200 breaks out of the loop exactly at the probe
following `before`, with one 2000 ms sleep per absorbed status. -/
theorem pollLoop_first200 (before : List Nat) :
    ∀ (rest : List Nat) (probes : Nat) (sleeps : List Nat),
      (∀ c ∈ before, c ≠ 200) →
      pollLoop ((before ++ 200 :: rest).map ProbeOutcome.status) probes sleeps =
        PollResult.ready (probes + before.length + 1)
          (sleeps ++ List.replicate before.length 2000) := by
  induction before with
  | nil =>
    intro rest probes sleeps _
    simp [pollLoop]
  | cons c before ih =>
    intro rest probes sleeps hne
    have hc : c ≠ 200 := hne c (List.mem_cons_self c before)
    simp only [List.cons_append, List.map_cons, pollLoop, if_neg hc, List.append_eq]
    rw [ih rest (probes + 1) (sleeps ++ [2000])
      (fun x hx => hne x (List.mem_cons_of_mem c hx))]
    simp only [List.length_cons, List.replicate_succ, List.append_assoc,
      List.singleton_append]
    congr 1
    omega

/-- Claim C4: over any status sequence whose first 200 comes after the
non-200 prefix `before`, the poller issues exactly `before.length + 1`
probes and becomes ready only then, having slept once between each pair of
consecutive probes. -/
theorem waitForDeployment_first200 (before rest : List Nat)
    (h : ∀ c ∈ before, c ≠ 200) :
    waitForDeployment ((before ++ 200 :: rest).map ProbeOutcome.status) =
      PollResult.ready (before.length + 1) (List.replicate before.length 2000) := by
  have hrun := pollLoop_first200 before rest 0 [] h
  simpa [waitForDeployment] using hrun

/-- Witness for claim C4 at the spec's example sequence `[503, 503, 200]`:
the poller becomes ready exactly after the third probe. -/
theorem waitForDeployment_first200_witness :
    (∀ c ∈ [503, 503], c ≠ 200) ∧
    waitForDeployment (([503, 503] ++ 200 :: []).map ProbeOutcome.status) =
      PollResult.ready 3 (List.replicate 2 2000) :=
  ⟨by decide, waitForDeployment_first200 [503, 503] [] (by decide)⟩

/-- Claim C5, counterexample: a probe that rejects (connection failure) is
not absorbed by the loop — with outcomes `[failure 0, status 200]` the run
ends as `errored` after the first probe, the error escaping
`waitForDeployment`, instead of retrying through to the 200. -/
theorem waitForDeployment_failure_escapes :
    waitForDeployment [ProbeOutcome.failure 0, ProbeOutcome.status 200] =
      PollResult.errored 0 1 [] := rfl

/-- Claim C5, amended: every non-200 status response is absorbed — the
poller sleeps the fixed 2000 ms and proceeds to the next iteration — but a
probe that itself errors is not absorbed: the loop body has no try/catch,
so the rejection escapes the loop to the caller after that probe. -/
theorem waitForDeployment_non200_handling (code : Nat) (e : Nat) (h : code ≠ 200) :
    (∀ (rest : List ProbeOutcome) (probes : Nat) (sleeps : List Nat),
      pollLoop (ProbeOutcome.status code :: rest) probes sleeps =
        pollLoop rest (probes + 1) (sleeps ++ [2000])) ∧
    (∀ (rest : List ProbeOutcome) (probes : Nat) (sleeps : List Nat),
      pollLoop (ProbeOutcome.failure e :: rest) probes sleeps =
        PollResult.errored e (probes + 1) sleeps) := by
  refine ⟨fun rest probes sleeps => ?_, fun rest probes sleeps => rfl⟩
  simp [pollLoop, h]

/-- Witness for claim C5 (amended) at status 503 and failure payload 7. -/
theorem waitForDeployment_non200_handling_witness :
    (503 : Nat) ≠ 200 ∧
    pollLoop [ProbeOutcome.status 503] 0 [] = pollLoop [] 1 [2000] ∧
    pollLoop [ProbeOutcome.failure 7] 0 [] = PollResult.errored 7 1 [] :=
  ⟨by decide,
    (waitForDeployment_non200_handling 503 7 (by decide)).1 [] 0 [],
    (waitForDeployment_non200_handling 503 7 (by decide)).2 [] 0 []⟩

/-- Claim C6: the poller's probe is issued with redirect-following disabled
(`{ redirect: 'manual' }`), so a 302 response is delivered as its raw status
and, being different from 200, is treated as not-ready: the loop does not
succeed there but sleeps 2000 ms and proceeds to another iteration. -/
theorem waitForDeployment_302_not_ready :
    probeInit.redirect = RedirectMode.manual ∧
    ∀ (rest : List ProbeOutcome) (probes : Nat) (sleeps : List Nat),
      pollLoop (ProbeOutcome.status 302 :: rest) probes sleeps =
        pollLoop rest (probes + 1) (sleeps ++ [2000]) :=
  ⟨rfl, fun _rest _probes _sleeps => rfl⟩

/-- A network oracle on which every request rejects with error `"boom"`. -/
def netBoom : Net := fun _ _ => Except.error "boom"

/-- A network oracle whose first attempt (index 0) rejects and whose later
attempts succeed with body `{token: "tok-value", user: "alice"}`. -/
def netFirstFails : Net := fun i _ =>
  if i = 0 then Except.error "down"
  else Except.ok { token := "tok-value", user := "alice" }

/-- Claim C2: when every attempt of the underlying operation fails,
`fetchTokenWithRetry` with `retries = n` issues exactly `n + 1` requests,
waits the fixed 500 ms delay exactly once between each pair of consecutive
attempts (`n` delays in total), and surfaces a failure. -/
theorem fetchTokenWithRetry_allFail (net : Net) (url : String)
    (retries attempt : Nat)
    (hfail : ∀ i, ∃ e, net i { url := url, auth := none } = Except.error e) :
    (fetchTokenWithRetry net url retries attempt).requests.length = retries + 1 ∧
    (fetchTokenWithRetry net url retries attempt).delays = List.replicate retries 500 ∧
    ∃ e, (fetchTokenWithRetry net url retries attempt).result = Except.error e := by
  induction retries generalizing attempt with
  | zero =>
    obtain ⟨e, he⟩ := hfail attempt
    refine ⟨?_, ?_, e, ?_⟩ <;> simp [fetchTokenWithRetry, he]
  | succ r ih =>
    obtain ⟨e, he⟩ := hfail attempt
    obtain ⟨ihr, ihd, e2, ihres⟩ := ih (attempt + 1)
    refine ⟨?_, ?_, e2, ?_⟩ <;>
      simp [fetchTokenWithRetry, he, ihr, ihd, ihres, List.replicate_succ]

/-- Witness for claim C2 with a budget of 3 retries against an
always-failing oracle: 4 requests, 3 delays of 500 ms, failure surfaced. -/
theorem fetchTokenWithRetry_allFail_witness :
    (∀ i, ∃ e, netBoom i { url := "u", auth := none } = Except.error e) ∧
    ((fetchTokenWithRetry netBoom "u" 3 0).requests.length = 4 ∧
    (fetchTokenWithRetry netBoom "u" 3 0).delays = List.replicate 3 500 ∧
    ∃ e, (fetchTokenWithRetry netBoom "u" 3 0).result = Except.error e) :=
  ⟨fun _ => ⟨"boom", rfl⟩,
    fetchTokenWithRetry_allFail netBoom "u" 3 0 (fun _ => ⟨"boom", rfl⟩)⟩

/-- Claim C3, counterexample: two exhausted runs against the same
always-failing oracle — one with 0 retries (1 attempt), one with 3 retries
(4 attempts) — surface the *identical* raw error `"boom"` even though their
attempt counts differ, so the surfaced error is the untagged underlying
error and carries no record of the number of attempts made. -/
theorem fetchTokenWithRetry_error_untagged :
    (fetchTokenWithRetry netBoom "u" 0 0).result = Except.error "boom" ∧
    (fetchTokenWithRetry netBoom "u" 3 0).result = Except.error "boom" ∧
    (fetchTokenWithRetry netBoom "u" 0 0).requests.length ≠
      (fetchTokenWithRetry netBoom "u" 3 0).requests.length := by
  refine ⟨rfl, rfl, ?_⟩
  decide

/-- Claim C3, amended: on exhaustion `fetchTokenWithRetry` rejects with the
error of the last attempt exactly as the underlying operation produced it —
unchanged, with no wrapper tag and no attempt count attached. -/
theorem fetchTokenWithRetry_surfaces_last_error (net : Net) (url : String)
    (errOf : Nat → String) (retries attempt : Nat)
    (hfail : ∀ i, net i { url := url, auth := none } = Except.error (errOf i)) :
    (fetchTokenWithRetry net url retries attempt).result =
      Except.error (errOf (attempt + retries)) := by
  induction retries generalizing attempt with
  | zero => simp [fetchTokenWithRetry, hfail attempt]
  | succ r ih =>
    have hrec := ih (attempt + 1)
    have harith : attempt + 1 + r = attempt + (r + 1) := by omega
    simp [fetchTokenWithRetry, hfail attempt, hrec, harith]

/-- Witness for claim C3 (amended): with 2 retries against an oracle whose
attempt `i` fails with the digit string of `i`, the surfaced error is the
last attempt's own error `"2"`. -/
theorem fetchTokenWithRetry_surfaces_last_error_witness :
    (∀ i, (fun j _ => Except.error (toString j) : Net) i
        { url := "u", auth := none } = Except.error (toString i)) ∧
    (fetchTokenWithRetry (fun j _ => Except.error (toString j)) "u" 2 0).result =
      Except.error (toString (0 + 2)) :=
  ⟨fun _ => rfl,
    fetchTokenWithRetry_surfaces_last_error (fun j _ => Except.error (toString j))
      "u" toString 2 0 (fun _ => rfl)⟩

/-- Claim C8: if the first `j` attempts fail and attempt `j` (0-based)
succeeds within the budget (`j ≤ retries`), `fetchTokenWithRetry` resolves
that success immediately: exactly `j + 1` requests are issued and exactly
`j` delays are waited — none after the successful attempt. -/
theorem fetchTokenWithRetry_firstSuccess (net : Net) (url : String)
    (retries j attempt : Nat) (d : ApiData)
    (hj : j ≤ retries)
    (hok : net (attempt + j) { url := url, auth := none } = Except.ok d)
    (hfail : ∀ i, i < j →
      ∃ e, net (attempt + i) { url := url, auth := none } = Except.error e) :
    (fetchTokenWithRetry net url retries attempt).result =
      Except.ok (Field.token d.token) ∧
    (fetchTokenWithRetry net url retries attempt).requests.length = j + 1 ∧
    (fetchTokenWithRetry net url retries attempt).delays = List.replicate j 500 := by
  induction j generalizing retries attempt with
  | zero =>
    have hok0 : net attempt { url := url, auth := none } = Except.ok d := by
      simpa using hok
    cases retries with
    | zero => refine ⟨?_, ?_, ?_⟩ <;> simp [fetchTokenWithRetry, hok0]
    | succ r => refine ⟨?_, ?_, ?_⟩ <;> simp [fetchTokenWithRetry, hok0]
  | succ jj ih =>
    obtain ⟨e, he⟩ := hfail 0 (Nat.succ_pos jj)
    have he0 : net attempt { url := url, auth := none } = Except.error e := by
      simpa using he
    cases retries with
    | zero => omega
    | succ r =>
      have hok1 : net ((attempt + 1) + jj) { url := url, auth := none } =
          Except.ok d := by
        have harith : (attempt + 1) + jj = attempt + (jj + 1) := by omega
        rw [harith]; exact hok
      have hfail1 : ∀ i, i < jj →
          ∃ e, net ((attempt + 1) + i) { url := url, auth := none } =
            Except.error e := by
        intro i hi
        have harith : (attempt + 1) + i = attempt + (i + 1) := by omega
        rw [harith]
        exact hfail (i + 1) (Nat.succ_lt_succ hi)
      obtain ⟨ihres, ihreq, ihd⟩ :=
        ih r (attempt + 1) (Nat.le_of_succ_le_succ hj) hok1 hfail1
      refine ⟨?_, ?_, ?_⟩ <;>
        simp [fetchTokenWithRetry, he0, ihres, ihreq, ihd, List.replicate_succ]

/-- Witness for claim C8: with 3 retries against `netFirstFails` (attempt 0
fails, attempt 1 succeeds), the run resolves the token after exactly 2
requests and a single 500 ms delay. -/
theorem fetchTokenWithRetry_firstSuccess_witness :
    ((1 : Nat) ≤ 3 ∧
     netFirstFails (0 + 1) { url := "u", auth := none } =
       Except.ok { token := "tok-value", user := "alice" } ∧
     (∀ i, i < 1 →
       ∃ e, netFirstFails (0 + i) { url := "u", auth := none } =
         Except.error e)) ∧
    ((fetchTokenWithRetry netFirstFails "u" 3 0).result =
      Except.ok (Field.token "tok-value") ∧
    (fetchTokenWithRetry netFirstFails "u" 3 0).requests.length = 2 ∧
    (fetchTokenWithRetry netFirstFails "u" 3 0).delays = List.replicate 1 500) := by
  have hfail : ∀ i, i < 1 →
      ∃ e, netFirstFails (0 + i) { url := "u", auth := none } =
        Except.error e := by
    intro i hi
    interval_cases i
    exact ⟨"down", rfl⟩
  exact ⟨⟨by decide, rfl, hfail⟩,
    fetchTokenWithRetry_firstSuccess netFirstFails "u" 3 1 0
      { token := "tok-value", user := "alice" } (by decide) rfl hfail⟩

/-- Claim C9 (code bug): `fetchTokenInformation`, retrying after a first
failed attempt, does not re-execute its own operation — its `setTimeout`
callback invokes `fetchTokenWithRetry(url, retries - 1)` instead of
`fetchTokenInformation(token, retries - 1)`.  Concretely, when attempt 0
fails and attempt 1 succeeds, the second request is issued *without* the
`Authorization: Bearer` header, and the run resolves the response's `token`
field instead of its `user` field. -/
theorem fetchTokenInformation_retry_substitutes_request :
    (fetchTokenInformation netFirstFails "secret" 3 0).requests =
      [{ url := userUrl, auth := some ("Bearer " ++ "secret") },
       { url := userUrl, auth := none }] ∧
    (fetchTokenInformation netFirstFails "secret" 3 0).result =
      Except.ok (Field.token "tok-value") :=
  ⟨rfl, rfl⟩

end NowCli
